import Mathlib

set_option autoImplicit false

/-!
# Verification of the meme-madness bracket lifecycle engine

A shallow embedding of the single-elimination tournament engine of the
repository.  The persistent data model (tables `tournament`, `rounds`,
`matchups`, `votes`, `memes` with their enums, uniqueness constraints and
row-level-security policies) is translated from the SQL migrations; the
frontend gating logic (vote buttons, submission limits, delete buttons,
tie-break controls) is translated from the React pages.  The HTTP backend
that implements the core operations (`seed`, `castVote`, `closeMatchup`,
`closeAllMatchups`, `advanceRound`, `resolveTie`) is not part of the
repository snapshot, so those operations are modelled from the design
document, anchored where possible in the schema constraints that are in
the repository (e.g. the `UNIQUE(matchup_id, voter_id)` constraint on
`votes`).
-/

/-- `tournament_status` enum from the schema migration:
`('submission_open', 'voting_open', 'complete')`. -/
inductive TStatus
  | submission_open
  | voting_open
  | complete
deriving DecidableEq, Repr

/-- `round_status` / `matchup_status` enums from the schema migration:
`('pending', 'voting', 'complete')`. -/
inductive MStatus
  | pending
  | voting
  | complete
deriving DecidableEq, Repr

/-- A row of the `memes` table: the entry pool.  Ids are abstracted to `Nat`. -/
structure Meme where
  id : Nat
  owner : Nat
deriving DecidableEq, Repr

/-- A row of the `rounds` table (`round_number`, `status`). -/
structure Round where
  number : Nat
  status : MStatus
deriving DecidableEq, Repr

/-- A row of the `matchups` table: `meme_a_id` is NOT NULL, `meme_b_id` is
nullable (bye), `winner_id` nullable until decided, plus `position` within
the round.  The next-round slot is derived from `position` (position `p`
feeds slot `p % 2` of position `p / 2` in the next round). -/
structure Matchup where
  id : Nat
  roundNumber : Nat
  position : Nat
  memeA : Nat
  memeB : Option Nat
  winner : Option Nat
  status : MStatus
deriving DecidableEq, Repr

/-- A row of the `votes` table: `(matchup_id, voter_id, meme_id)`,
subject to `UNIQUE(matchup_id, voter_id)`. -/
structure Ballot where
  matchupId : Nat
  voter : Nat
  meme : Nat
deriving DecidableEq, Repr

/-- The persistent state of one tournament. -/
structure State where
  tstatus : TStatus
  totalRounds : Option Nat
  memes : List Meme
  rounds : List Round
  matchups : List Matchup
  ballots : List Ballot
  nextId : Nat
deriving DecidableEq, Repr

/-- The error taxonomy of the design document (§7). -/
inductive Err
  | InsufficientEntries
  | InvalidState
  | AlreadyVoted
  | InvalidChoice
  | ConflictOfInterest
  | MatchupNotVotable
  | TieRequiresResolution
  | RoundNotComplete
  | NotAuthorized
deriving DecidableEq, Repr

/-- Number of ballots of a matchup choosing a given meme (pure read over
the `votes` table). -/
def votesFor (st : State) (mid memeId : Nat) : Nat :=
  (st.ballots.filter fun b => b.matchupId == mid && b.meme == memeId).length

/-- `votes_a` of a matchup. -/
def votesA (st : State) (m : Matchup) : Nat :=
  votesFor st m.id m.memeA

/-- `votes_b` of a matchup (0 for a bye). -/
def votesB (st : State) (m : Matchup) : Nat :=
  match m.memeB with
  | some b => votesFor st m.id b
  | none => 0

/-- All ballots of a matchup. -/
def ballotsFor (st : State) (mid : Nat) : List Ballot :=
  st.ballots.filter fun b => b.matchupId == mid

/-- Whether a voter already holds a ballot for a matchup. -/
def hasVoted (st : State) (voter mid : Nat) : Bool :=
  st.ballots.any fun b => b.matchupId == mid && b.voter == voter

/-- Whether a user owns one of the matchup's two entries (the frontend makes
the same check on `matchup.meme_a.owner_id` / `matchup.meme_b.owner_id`). -/
def ownsEntry (st : State) (userId : Nat) (m : Matchup) : Bool :=
  (match st.memes.find? fun mm => mm.id == m.memeA with
   | some mm => mm.owner == userId
   | none => false)
  ||
  (match m.memeB with
   | some b =>
     match st.memes.find? fun mm => mm.id == b with
     | some mm => mm.owner == userId
     | none => false
   | none => false)

/-- Status of the matchup with a given id, if present. -/
def matchupStatus (st : State) (mid : Nat) : Option MStatus :=
  (st.matchups.find? fun x => x.id == mid).map fun x => x.status

/-- The state an operation leaves behind: errors are request-local and
mutate nothing. -/
def stepState (st : State) (res : Except Err State) : State :=
  match res with
  | .ok st2 => st2
  | .error _ => st

/-- Modelled from the spec: the backend `castVote(matchup, voter, entry)`
operation is not in the repository; its preconditions are taken from §4.2
in order (`MatchupNotVotable`, `InvalidChoice`, `AlreadyVoted`,
`ConflictOfInterest`), and the duplicate-ballot rejection realises the
`UNIQUE(matchup_id, voter_id)` constraint of the `votes` table. -/
def castVote (st : State) (mid voter memeId : Nat) : Except Err State :=
  match st.matchups.find? fun x => x.id == mid with
  | none => .error .InvalidState
  | some m =>
    if m.status = .voting then
      if memeId = m.memeA ∨ some memeId = m.memeB then
        if hasVoted st voter mid then .error .AlreadyVoted
        else if ownsEntry st voter m then .error .ConflictOfInterest
        else .ok { st with ballots := st.ballots ++ [⟨mid, voter, memeId⟩] }
      else .error .InvalidChoice
    else .error .MatchupNotVotable

/-- Modelled from the spec: the backend `closeMatchup` operation is not in
the repository; §4.3 requires `status = voting`, decides the winner by
strict tally comparison and fails a tie with `TieRequiresResolution`. -/
def closeMatchup (st : State) (mid : Nat) : Except Err State :=
  match st.matchups.find? fun x => x.id == mid with
  | none => .error .InvalidState
  | some m =>
    if m.status = .voting then
      if votesA st m > votesB st m then
        .ok { st with matchups := st.matchups.map (fun x =>
          if x = m then { x with winner := some m.memeA, status := .complete } else x) }
      else if votesB st m > votesA st m then
        .ok { st with matchups := st.matchups.map (fun x =>
          if x = m then { x with winner := m.memeB, status := .complete } else x) }
      else .error .TieRequiresResolution
    else .error .InvalidState

/-- Modelled from the spec: the backend `closeAllMatchups` operation is not
in the repository; §4.3 applies the closing rule to every `voting` matchup
of the round and leaves ties open (partial success, never aborting). -/
def closeAllMatchups (st : State) (roundNum : Nat) : Except Err State :=
  .ok { st with matchups := st.matchups.map (fun x =>
    if x.roundNumber = roundNum ∧ x.status = .voting then
      if votesA st x > votesB st x then { x with winner := some x.memeA, status := .complete }
      else if votesB st x > votesA st x then { x with winner := x.memeB, status := .complete }
      else x
    else x) }

/-- Modelled from the spec: the backend `resolveTie` operation is not in
the repository; §4.4 requires a non-complete matchup, a genuine tie, a
chosen entry among the matchup's two entries and administrative authority,
then sets the winner bypassing the vote counts. -/
def resolveTie (st : State) (mid chosenId : Nat) (admin : Bool) : Except Err State :=
  if admin = false then .error .NotAuthorized
  else
    match st.matchups.find? fun x => x.id == mid with
    | none => .error .InvalidState
    | some m =>
      if m.status = .complete then .error .InvalidState
      else if votesA st m ≠ votesB st m then .error .InvalidState
      else if chosenId = m.memeA ∨ some chosenId = m.memeB then
        .ok { st with matchups := st.matchups.map (fun x =>
          if x = m then { x with winner := some chosenId, status := .complete } else x) }
      else .error .InvalidChoice

/-- Smallest power of two holding `n` entries: `2 ^ ⌈log₂ n⌉`. -/
def bracketSize (n : Nat) : Nat :=
  2 ^ Nat.clog 2 n

/-- Number of byes a bracket of `n` entries needs. -/
def numByes (n : Nat) : Nat :=
  bracketSize n - n

/-- Round-1 bye matchups for the bye recipients, one per entry, created
already complete with the lone entry as winner, at sequential positions. -/
def mkByes (baseId pos : Nat) : List Meme → List Matchup
  | [] => []
  | mm :: rest =>
    { id := baseId, roundNumber := 1, position := pos, memeA := mm.id,
      memeB := none, winner := some mm.id, status := .complete } :: mkByes (baseId + 1) (pos + 1) rest

/-- Round-1 contested matchups pairing the remaining entries two by two,
created in status `voting`. -/
def mkPairs (baseId pos : Nat) : List Meme → List Matchup
  | a :: b :: rest =>
    { id := baseId, roundNumber := 1, position := pos, memeA := a.id,
      memeB := some b.id, winner := none, status := .voting } :: mkPairs (baseId + 1) (pos + 1) rest
  | _ => []

/-- Modelled from the spec: the backend `seed(tournament, entries)`
operation is not in the repository; §4.1 requires status `submission_open`
and at least two entries (else `InsufficientEntries`), computes the
bracket size, assigns the first `num_byes` entries (in the externally
randomized order the entry pool is held in) as byes, pairs the rest, and
sets `total_rounds = log2(bracket_size)` and status `voting_open`. -/
def seed (st : State) : Except Err State :=
  if st.tstatus = .submission_open ∧ 2 ≤ st.memes.length then
    let n := st.memes.length
    let nb := numByes n
    let byes := st.memes.take nb
    let rest := st.memes.drop nb
    let ms := mkByes st.nextId 0 byes ++ mkPairs (st.nextId + nb) nb rest
    .ok { st with
      tstatus := .voting_open,
      totalRounds := some (Nat.clog 2 n),
      rounds := [⟨1, if rest.isEmpty then .complete else .voting⟩],
      matchups := ms,
      ballots := st.ballots,
      nextId := st.nextId + bracketSize n / 2 }
  else .error .InsufficientEntries

/-- The matchup of the next round fed by positions `2p` and `2p + 1` of
the closed round: winners land in slot a / slot b by parity of position;
a slot whose feeder is missing leaves the matchup a bye, auto-completed
(the design document's §4.3 bye-arrival rule, unreachable from round 2
onward because seeding makes every round's matchup count even or one). -/
def mkNext (baseId nextNum : Nat) (ms : List Matchup) (p : Nat) : Option Matchup :=
  match (ms.find? fun m => m.position == 2 * p).bind (fun m => m.winner),
        (ms.find? fun m => m.position == 2 * p + 1).bind (fun m => m.winner) with
  | some wa, some wb =>
    some { id := baseId + p, roundNumber := nextNum, position := p, memeA := wa,
           memeB := some wb, winner := none, status := .voting }
  | some wa, none =>
    some { id := baseId + p, roundNumber := nextNum, position := p, memeA := wa,
           memeB := none, winner := some wa, status := .complete }
  | none, some wb =>
    some { id := baseId + p, roundNumber := nextNum, position := p, memeA := wb,
           memeB := none, winner := some wb, status := .complete }
  | none, none => none

/-- Modelled from the spec: the backend `advanceRound(tournament)`
operation is not in the repository; §4.3 requires a current voting round
whose matchups are all complete (else `RoundNotComplete`), propagates
winners into next-round slots by the parity rule, marks the round
complete, and either completes the tournament (final round) or opens the
next round for voting. -/
def advanceRound (st : State) : Except Err State :=
  if st.tstatus = .voting_open then
    match st.rounds.find? (fun r => r.status == .voting) with
    | none => .error .RoundNotComplete
    | some r =>
      let ms := st.matchups.filter (fun m => m.roundNumber == r.number)
      if ms.any (fun m => !(m.status == .complete)) then .error .RoundNotComplete
      else if ms.length ≤ 1 then
        .ok { st with
          tstatus := .complete,
          rounds := st.rounds.map (fun x =>
            if x.number = r.number then { x with status := .complete } else x) }
      else
        let newMs := (List.range (ms.length / 2)).filterMap (mkNext st.nextId (r.number + 1) ms)
        .ok { st with
          rounds := (st.rounds.map (fun x =>
            if x.number = r.number then { x with status := .complete } else x))
            ++ [⟨r.number + 1, .voting⟩],
          matchups := st.matchups ++ newMs,
          nextId := st.nextId + ms.length / 2 }
  else .error .InvalidState

/-- The core operations exposed by the engine (§6); reads are omitted as
they do not mutate state. -/
inductive Op
  | seedOp
  | castVoteOp (mid voter memeId : Nat)
  | closeMatchupOp (mid : Nat)
  | closeAllOp (roundNum : Nat)
  | advanceOp
  | resolveTieOp (mid chosenId : Nat) (admin : Bool)
deriving DecidableEq, Repr

/-- Dispatch one core operation against the state. -/
def applyOp (st : State) : Op → Except Err State
  | .seedOp => seed st
  | .castVoteOp mid voter memeId => castVote st mid voter memeId
  | .closeMatchupOp mid => closeMatchup st mid
  | .closeAllOp roundNum => closeAllMatchups st roundNum
  | .advanceOp => advanceRound st
  | .resolveTieOp mid chosenId admin => resolveTie st mid chosenId admin

/-- Whether an operation is the tie resolver. -/
def Op.isTieResolution : Op → Bool
  | .resolveTieOp _ _ _ => true
  | _ => false

/-- RLS policy "Votes are viewable by authenticated users" from the schema
migration: `FOR SELECT TO authenticated USING (true)` — every
authenticated caller may read every ballot row. -/
def votesSelectPolicy (authenticated : Bool) : Bool :=
  authenticated

/-- RLS policy "Votes viewable by tournament members or admins" from the
join-code migration, which replaces the open policy: any member or admin
of the matchup's tournament may read its ballot rows. -/
def votesSelectPolicyMembers (isMember isTournamentAdmin : Bool) : Bool :=
  isMember || isTournamentAdmin

/-- RLS policy "Users can insert own votes" from the schema migration:
`WITH CHECK (auth.uid() = voter_id)`. -/
def votesInsertPolicy (callerId voterId : Nat) : Bool :=
  callerId == voterId

/-- The SQL commands relevant to row-level security. -/
inductive SqlCmd
  | select
  | insert
  | update
  | delete
deriving DecidableEq, Repr

/-- What the `votes` table's RLS policies allow an authenticated caller:
SELECT is open, INSERT only as oneself, and the migration declares no
UPDATE or DELETE policy at all, so those commands are denied. -/
def votesPolicyAllows (cmd : SqlCmd) (authenticated callerIsVoter : Bool) : Bool :=
  match cmd with
  | .select => votesSelectPolicy authenticated
  | .insert => authenticated && callerIsVoter
  | .update => false
  | .delete => false

/-- RLS policy "Users can delete own memes" from the schema migration:
`FOR DELETE TO authenticated USING (auth.uid() = owner_id)` — the only
condition is ownership. -/
def memesDeletePolicy (callerId ownerId : Nat) : Bool :=
  callerId == ownerId

/-- Whether a storage-level DELETE of a meme row is permitted for a
caller, per the RLS policy (ownership only; the policy does not consult
the tournament's status). -/
def storageDeleteAllowed (st : State) (callerId memeId : Nat) : Bool :=
  match st.memes.find? (fun mm => mm.id == memeId) with
  | some mm => memesDeletePolicy callerId mm.owner
  | none => false

/-- `SubmitPage`: `const atLimit = myMemes.length >= 2`. -/
def atLimit (myMemesCount : Nat) : Bool :=
  decide (2 ≤ myMemesCount)

/-- `SubmitPage`: `const submissionsOpen = tournament.status === 'submission_open'`. -/
def submissionsOpen (t : TStatus) : Bool :=
  t == .submission_open

/-- `SubmitPage`: the upload form is rendered iff
`submissionsOpen && !atLimit`. -/
def uploadFormShown (t : TStatus) (myMemesCount : Nat) : Bool :=
  submissionsOpen t && !atLimit myMemesCount

/-- `SubmitPage`: the "Submission Limit Reached" card is rendered iff
`submissionsOpen && atLimit`. -/
def limitCardShown (t : TStatus) (myMemesCount : Nat) : Bool :=
  submissionsOpen t && atLimit myMemesCount

/-- `SubmitPage`: the submissions counter inside the upload form,
`{myMemes.length}/2 submissions used`. -/
def submissionsCountText (myMemesCount : Nat) : String :=
  toString myMemesCount ++ "/2 submissions used"

/-- `SubmitPage`: the per-meme Delete button is rendered iff
`submissionsOpen`. -/
def deleteButtonShown (t : TStatus) : Bool :=
  submissionsOpen t

/-- The data `VotingPage`'s `VotingMatchup` component consumes. -/
structure MatchupView where
  memeAId : Nat
  memeBId : Option Nat
  memeAOwner : Option Nat
  memeBOwner : Option Nat
  status : MStatus
deriving DecidableEq, Repr

/-- `VotingMatchup`: `matchup.meme_a?.owner_id === userId ||
matchup.meme_b?.owner_id === userId`. -/
def viewIsOwner (v : MatchupView) (userId : Nat) : Bool :=
  v.memeAOwner == some userId || v.memeBOwner == some userId

/-- `VotingMatchup`: the side-A Vote button is rendered iff
`!myVote && !isOwner && matchup.status === 'voting'`. -/
def voteButtonA (v : MatchupView) (userId : Nat) (myVote : Option Nat) : Bool :=
  myVote.isNone && !viewIsOwner v userId && (v.status == .voting)

/-- `VotingMatchup`: the side-B Vote button additionally requires
`matchup.meme_b_id` to be present. -/
def voteButtonB (v : MatchupView) (userId : Nat) (myVote : Option Nat) : Bool :=
  myVote.isNone && !viewIsOwner v userId && (v.status == .voting) && v.memeBId.isSome

/-- Modelled from the spec: the backend results endpoint
(`getResults(matchupId, callerId)`) is not in the repository; per §4.2 it
returns the tallies together with `visible = caller has voted ∨ matchup
complete`. -/
def getResults (st : State) (callerId mid : Nat) : Option (Nat × Nat × Bool) :=
  (st.matchups.find? (fun x => x.id == mid)).map (fun m =>
    (votesA st m, votesB st m, hasVoted st callerId mid || (m.status == .complete)))

/-- `AdminPage`: the tie-break controls are rendered iff
`m.status !== 'complete' && m.meme_b_id && votes_a === votes_b`. -/
def tieBreakControlsShown (status : MStatus) (memeBId : Option Nat) (va vb : Nat) : Bool :=
  !(status == .complete) && memeBId.isSome && (va == vb)

/-- The uniqueness invariant of the `votes` table: at most one ballot per
`(matchup_id, voter_id)` (the table's UNIQUE constraint). -/
def UniqueBallots (st : State) : Prop :=
  st.ballots.Pairwise (fun b1 b2 => ¬(b1.matchupId = b2.matchupId ∧ b1.voter = b2.voter))

/-- A map that preserves matchup ids commutes with lookup by id. -/
theorem find?_map_id (f : Matchup → Matchup) (hf : ∀ x, (f x).id = x.id)
    (l : List Matchup) (k : Nat) :
    (l.map f).find? (fun x => x.id == k) = (l.find? (fun x => x.id == k)).map f := by
  have hp : ((fun x : Matchup => x.id == k) ∘ f) = (fun x : Matchup => x.id == k) := by
    funext x
    simp [Function.comp, hf]
  rw [List.find?_map, hp]

/-- Splitting the ballots of a matchup between the two entries. -/
theorem length_filter_split (l : List Ballot) (mid a b : Nat) (hab : a ≠ b)
    (h : ∀ x ∈ l, x.matchupId = mid → x.meme = a ∨ x.meme = b) :
    ((l.filter fun x => x.matchupId == mid && x.meme == a).length
      + (l.filter fun x => x.matchupId == mid && x.meme == b).length)
      = (l.filter fun x => x.matchupId == mid).length := by
  induction l with
  | nil => simp
  | cons x xs ih =>
    have hx := h x (List.mem_cons_self x xs)
    have ih2 := ih (fun y hy => h y (List.mem_cons_of_mem x hy))
    by_cases hm : x.matchupId = mid
    · by_cases hax : x.meme = a
      · rw [List.filter_cons_of_pos (by simp [hm, hax]),
          List.filter_cons_of_neg (by simp [hm, hax, hab]),
          List.filter_cons_of_pos (by simp [hm])]
        simp only [List.length_cons]
        omega
      · have hbx : x.meme = b := (hx hm).resolve_left hax
        rw [List.filter_cons_of_neg (by simp [hm, hbx, Ne.symm hab]),
          List.filter_cons_of_pos (by simp [hm, hbx]),
          List.filter_cons_of_pos (by simp [hm])]
        simp only [List.length_cons]
        omega
    · rw [List.filter_cons_of_neg (by simp [hm]),
        List.filter_cons_of_neg (by simp [hm]),
        List.filter_cons_of_neg (by simp [hm])]
      omega

/-- When every ballot of a matchup chooses the same entry, that entry's
count is the whole count. -/
theorem length_filter_all (l : List Ballot) (mid a : Nat)
    (h : ∀ x ∈ l, x.matchupId = mid → x.meme = a) :
    (l.filter fun x => x.matchupId == mid && x.meme == a).length
      = (l.filter fun x => x.matchupId == mid).length := by
  induction l with
  | nil => simp
  | cons x xs ih =>
    have hx := h x (List.mem_cons_self x xs)
    have ih2 := ih (fun y hy => h y (List.mem_cons_of_mem x hy))
    by_cases hm : x.matchupId = mid
    · rw [List.filter_cons_of_pos (by simp [hm, hx hm]),
        List.filter_cons_of_pos (by simp [hm])]
      simp only [List.length_cons]
      omega
    · rw [List.filter_cons_of_neg (by simp [hm]),
        List.filter_cons_of_neg (by simp [hm])]
      omega

/-- The tally law: when every ballot of a matchup chooses one of its two
(distinct) entries, `votes_a + votes_b` is the total ballot count. -/
theorem tally_eq_ballots (st : State) (m : Matchup)
    (hwf : ∀ x ∈ st.ballots, x.matchupId = m.id → (x.meme = m.memeA ∨ some x.meme = m.memeB))
    (hab : some m.memeA ≠ m.memeB) :
    votesA st m + votesB st m = (ballotsFor st m.id).length := by
  cases hb : m.memeB with
  | none =>
    simp only [votesB, hb, votesA, votesFor, ballotsFor, Nat.add_zero]
    apply length_filter_all
    intro x hx hmid
    rcases hwf x hx hmid with h1 | h1
    · exact h1
    · rw [hb] at h1
      cases h1
  | some bId =>
    have hne : m.memeA ≠ bId := by
      intro he
      apply hab
      rw [hb, he]
    simp only [votesB, hb, votesA, votesFor, ballotsFor]
    apply length_filter_split st.ballots m.id m.memeA bId hne
    intro x hx hmid
    rcases hwf x hx hmid with h1 | h1
    · exact Or.inl h1
    · rw [hb] at h1
      exact Or.inr (Option.some_injective _ h1)

/-- C1: for every matchup and voter at most one ballot exists for the
pair: a first `castVote` satisfying all preconditions appends exactly one
ballot (the `(matchup, voter)` count becomes 1), any second `castVote` by
the same voter on the same matchup fails — with `AlreadyVoted` whenever
the chosen entry is one of the matchup's two entries — and leaves the
ballot set unchanged, the `UNIQUE(matchup_id, voter_id)` invariant is
preserved, and `votes_a + votes_b` equals the number of accepted ballots
of every matchup whose ballots are well formed. -/
theorem castVote_vote_uniqueness (st st' : State) (mid voter memeId : Nat) (m : Matchup)
    (hfind : st.matchups.find? (fun x => x.id == mid) = some m)
    (hok : castVote st mid voter memeId = .ok st') :
    st'.ballots = st.ballots ++ [⟨mid, voter, memeId⟩]
    ∧ (st'.ballots.filter (fun b => b.matchupId == mid && b.voter == voter)).length = 1
    ∧ (∀ e2, ∃ err, castVote st' mid voter e2 = .error err)
    ∧ (∀ e2, stepState st' (castVote st' mid voter e2) = st')
    ∧ (∀ e2, (e2 = m.memeA ∨ some e2 = m.memeB) → castVote st' mid voter e2 = .error .AlreadyVoted)
    ∧ (UniqueBallots st → UniqueBallots st')
    ∧ (∀ m2, (∀ x ∈ st'.ballots, x.matchupId = m2.id → (x.meme = m2.memeA ∨ some x.meme = m2.memeB)) →
        some m2.memeA ≠ m2.memeB →
        votesA st' m2 + votesB st' m2 = (ballotsFor st' m2.id).length) := by
  simp only [castVote, hfind] at hok
  split_ifs at hok with h1 h2 h3 h4
  all_goals injection hok with hok2
  subst hok2
  have hfind2 : (({ st with ballots := st.ballots ++ [⟨mid, voter, memeId⟩] } : State)).matchups.find?
      (fun x => x.id == mid) = some m := hfind
  have hvoted2 : hasVoted ({ st with ballots := st.ballots ++ [⟨mid, voter, memeId⟩] } : State) voter mid = true := by
    simp [hasVoted, List.any_append]
  have hsecond : ∀ e2, (e2 = m.memeA ∨ some e2 = m.memeB) →
      castVote ({ st with ballots := st.ballots ++ [⟨mid, voter, memeId⟩] } : State) mid voter e2
        = .error .AlreadyVoted := by
    intro e2 he2
    simp only [castVote, hfind2]
    rw [if_pos h1, if_pos he2, if_pos hvoted2]
  have hanyfalse : ∀ bb ∈ st.ballots, ¬(bb.matchupId == mid && bb.voter == voter) = true := by
    intro bb hbb
    have hv : hasVoted st voter mid = false := by
      revert h3
      cases hasVoted st voter mid <;> simp
    have hv2 : ∀ x ∈ st.ballots, x.matchupId = mid → ¬x.voter = voter := by
      simpa [hasVoted] using hv
    intro hcon
    simp only [Bool.and_eq_true, beq_iff_eq] at hcon
    exact hv2 bb hbb hcon.1 hcon.2
  refine ⟨rfl, ?_, ?_, ?_, hsecond, ?_, ?_⟩
  · have hnil : st.ballots.filter (fun b => b.matchupId == mid && b.voter == voter) = [] :=
      List.filter_eq_nil_iff.mpr hanyfalse
    simp [List.filter_append, hnil]
  · intro e2
    by_cases he2 : e2 = m.memeA ∨ some e2 = m.memeB
    · exact ⟨.AlreadyVoted, hsecond e2 he2⟩
    · refine ⟨.InvalidChoice, ?_⟩
      simp only [castVote, hfind2]
      rw [if_pos h1, if_neg he2]
  · intro e2
    by_cases he2 : e2 = m.memeA ∨ some e2 = m.memeB
    · rw [hsecond e2 he2]
      rfl
    · have hch : castVote ({ st with ballots := st.ballots ++ [⟨mid, voter, memeId⟩] } : State) mid voter e2
          = .error .InvalidChoice := by
        simp only [castVote, hfind2]
        rw [if_pos h1, if_neg he2]
      rw [hch]
      rfl
  · intro hu
    unfold UniqueBallots at hu ⊢
    rw [List.pairwise_append]
    refine ⟨hu, List.pairwise_singleton _ _, ?_⟩
    intro x hx y hy
    simp only [List.mem_singleton] at hy
    subst hy
    intro hcon
    exact hanyfalse x hx (by simp [hcon.1, hcon.2])
  · intro m2 hwf hab
    exact tally_eq_ballots _ m2 hwf hab

/-- A concrete tournament mid-vote: one contested matchup between entries
1 (owner 100) and 2 (owner 200). -/
def exSt1 : State :=
  { tstatus := .voting_open, totalRounds := some 1,
    memes := [⟨1, 100⟩, ⟨2, 200⟩],
    rounds := [⟨1, .voting⟩],
    matchups := [⟨10, 1, 0, 1, some 2, none, .voting⟩],
    ballots := [], nextId := 11 }

/-- `exSt1` after voter 300 votes for entry 1 in matchup 10. -/
def exSt1V : State :=
  { exSt1 with ballots := [⟨10, 300, 1⟩] }

/-- Witness for C1: voter 300's first vote is persisted, the second fails
with `AlreadyVoted`. -/
theorem castVote_vote_uniqueness_witness :
    exSt1V.ballots = exSt1.ballots ++ [⟨10, 300, 1⟩]
    ∧ castVote exSt1V 10 300 1 = .error .AlreadyVoted := by
  have h := castVote_vote_uniqueness exSt1 exSt1V 10 300 1 ⟨10, 1, 0, 1, some 2, none, .voting⟩
    (by rfl) (by rfl)
  exact ⟨h.1, h.2.2.2.2.1 1 (Or.inl rfl)⟩

/-- Every bye matchup the seeder creates is complete, has no second entry
and carries its lone entry as winner, in round 1. -/
theorem mkByes_mem : ∀ (baseId pos : Nat) (l : List Meme), ∀ x ∈ mkByes baseId pos l,
    x.memeB = none ∧ x.status = .complete ∧ x.winner = some x.memeA ∧ x.roundNumber = 1
  | _, _, [] => by simp [mkByes]
  | baseId, pos, mm :: rest => by
    intro x hx
    simp only [mkByes, List.mem_cons] at hx
    rcases hx with h | h
    · subst h
      exact ⟨rfl, rfl, rfl, rfl⟩
    · exact mkByes_mem (baseId + 1) (pos + 1) rest x h

/-- Every contested matchup the seeder creates has a second entry, no
winner yet, and status voting, in round 1. -/
theorem mkPairs_mem : ∀ (baseId pos : Nat) (l : List Meme), ∀ x ∈ mkPairs baseId pos l,
    x.memeB.isSome ∧ x.status = .voting ∧ x.winner = none ∧ x.roundNumber = 1
  | _, _, [] => by simp [mkPairs]
  | _, _, [_] => by simp [mkPairs]
  | baseId, pos, a :: b :: rest => by
    intro x hx
    simp only [mkPairs, List.mem_cons] at hx
    rcases hx with h | h
    · subst h
      exact ⟨rfl, rfl, rfl, rfl⟩
    · exact mkPairs_mem (baseId + 1) (pos + 1) rest x h

/-- The seeder creates one bye matchup per bye recipient. -/
theorem mkByes_length : ∀ (baseId pos : Nat) (l : List Meme),
    (mkByes baseId pos l).length = l.length
  | _, _, [] => by simp [mkByes]
  | baseId, pos, mm :: rest => by
    simp [mkByes, mkByes_length (baseId + 1) (pos + 1) rest]

/-- The seeder creates one contested matchup per pair of remaining
entries. -/
theorem mkPairs_length : ∀ (baseId pos : Nat) (l : List Meme),
    (mkPairs baseId pos l).length = l.length / 2
  | _, _, [] => by simp [mkPairs]
  | _, _, [_] => by simp [mkPairs]
  | baseId, pos, a :: b :: rest => by
    have ih := mkPairs_length (baseId + 1) (pos + 1) rest
    simp only [mkPairs, List.length_cons, ih]
    omega

/-- C3: with at least two entries and a tournament in `submission_open`,
`seed` succeeds; `bracket_size` is the smallest power of two ≥ n and
equals `2 ^ total_rounds` (so `total_rounds = log2 bracket_size`);
`num_byes = bracket_size − n`; exactly `bracket_size / 2` round-1
matchups are created of which `num_byes` are byes.  With fewer than two
entries or any other tournament status, `seed` fails with
`InsufficientEntries` and creates no rounds or matchups. -/
theorem seed_bracket_arithmetic (st : State) :
    (st.tstatus = .submission_open → 2 ≤ st.memes.length →
      ∃ st', seed st = .ok st'
        ∧ (∃ t, st'.totalRounds = some t ∧ bracketSize st.memes.length = 2 ^ t)
        ∧ st.memes.length ≤ bracketSize st.memes.length
        ∧ (∀ k, st.memes.length ≤ 2 ^ k → bracketSize st.memes.length ≤ 2 ^ k)
        ∧ numByes st.memes.length = bracketSize st.memes.length - st.memes.length
        ∧ st'.rounds = [⟨1, .voting⟩]
        ∧ st'.matchups.length = bracketSize st.memes.length / 2
        ∧ (st'.matchups.filter (fun m => m.memeB == none)).length = numByes st.memes.length)
    ∧ ((st.tstatus ≠ .submission_open ∨ st.memes.length < 2) →
        seed st = .error .InsufficientEntries ∧ stepState st (seed st) = st) := by
  constructor
  · intro hs hn
    have hb2 : (1 : ℕ) < 2 := by norm_num
    have hn1 : 1 < st.memes.length := hn
    have hclogpos : 0 < Nat.clog 2 st.memes.length := Nat.clog_pos hb2 hn1
    have hle : st.memes.length ≤ bracketSize st.memes.length := Nat.le_pow_clog hb2 _
    have hbseq : bracketSize st.memes.length = 2 * 2 ^ (Nat.clog 2 st.memes.length - 1) := by
      have hc : Nat.clog 2 st.memes.length - 1 + 1 = Nat.clog 2 st.memes.length :=
        Nat.sub_add_cancel hclogpos
      unfold bracketSize
      calc 2 ^ Nat.clog 2 st.memes.length
          = 2 ^ (Nat.clog 2 st.memes.length - 1 + 1) := by rw [hc]
        _ = 2 * 2 ^ (Nat.clog 2 st.memes.length - 1) := by rw [pow_succ]; ring
    have hlt2n : bracketSize st.memes.length < 2 * st.memes.length := by
      have h : 2 ^ (Nat.clog 2 st.memes.length - 1) < st.memes.length := by
        simpa [Nat.pred_eq_sub_one] using Nat.pow_pred_clog_lt_self hb2 hn1
      omega
    have hnblt : numByes st.memes.length < st.memes.length := by
      unfold numByes
      omega
    have hcond : st.tstatus = .submission_open ∧ 2 ≤ st.memes.length := ⟨hs, hn⟩
    have hlen_take : (st.memes.take (numByes st.memes.length)).length = numByes st.memes.length := by
      rw [List.length_take]
      omega
    have hlen_drop : (st.memes.drop (numByes st.memes.length)).length
        = st.memes.length - numByes st.memes.length := List.length_drop _ _
    have hrest : (st.memes.drop (numByes st.memes.length)).isEmpty = false := by
      cases hcase : st.memes.drop (numByes st.memes.length) with
      | nil =>
        rw [hcase] at hlen_drop
        simp at hlen_drop
        omega
      | cons a l => rfl
    refine ⟨{ st with
        tstatus := .voting_open,
        totalRounds := some (Nat.clog 2 st.memes.length),
        rounds := [⟨1, .voting⟩],
        matchups := mkByes st.nextId 0 (st.memes.take (numByes st.memes.length))
          ++ mkPairs (st.nextId + numByes st.memes.length) (numByes st.memes.length)
              (st.memes.drop (numByes st.memes.length)),
        nextId := st.nextId + bracketSize st.memes.length / 2 }, ?_, ?_, hle, ?_, rfl, rfl, ?_, ?_⟩
    · simp only [seed]
      rw [if_pos hcond, hrest]
      simp
    · exact ⟨Nat.clog 2 st.memes.length, rfl, rfl⟩
    · intro k hk
      have hck := (Nat.le_pow_iff_clog_le hb2).1 hk
      exact Nat.pow_le_pow_right (by norm_num) hck
    · simp only [List.length_append, mkByes_length, mkPairs_length, hlen_take, hlen_drop]
      unfold numByes at *
      omega
    · rw [List.filter_append]
      have hfb : (mkByes st.nextId 0 (st.memes.take (numByes st.memes.length))).filter
          (fun m => m.memeB == none)
          = mkByes st.nextId 0 (st.memes.take (numByes st.memes.length)) := by
        rw [List.filter_eq_self]
        intro x hx
        simp [(mkByes_mem _ _ _ x hx).1]
      have hfp : (mkPairs (st.nextId + numByes st.memes.length) (numByes st.memes.length)
          (st.memes.drop (numByes st.memes.length))).filter (fun m => m.memeB == none) = [] := by
        rw [List.filter_eq_nil_iff]
        intro x hx
        have h1 := (mkPairs_mem _ _ _ x hx).1
        cases hx2 : x.memeB with
        | none => rw [hx2] at h1; simp at h1
        | some b => simp [hx2]
      rw [hfb, hfp, List.length_append]
      simp [mkByes_length, hlen_take]
  · intro hfail
    have hcond : ¬(st.tstatus = .submission_open ∧ 2 ≤ st.memes.length) := by
      rcases hfail with h | h
      · exact fun hc => h hc.1
      · exact fun hc => by omega
    have herr : seed st = .error .InsufficientEntries := by
      simp only [seed]
      rw [if_neg hcond]
    exact ⟨herr, by rw [herr]; rfl⟩

/-- `⌈log₂ 5⌉ = 3`: a 5-entry bracket is padded to 8 slots. -/
theorem clog_two_five : Nat.clog 2 5 = 3 := by
  have h1 : Nat.clog 2 5 ≤ 3 := (Nat.le_pow_iff_clog_le (by norm_num)).1 (by norm_num)
  have h2 : 2 < Nat.clog 2 5 := (Nat.pow_lt_iff_lt_clog (by norm_num)).1 (by norm_num)
  omega

/-- A 5-entry tournament awaiting seeding. -/
def exSt3 : State :=
  { tstatus := .submission_open, totalRounds := none,
    memes := [⟨1, 11⟩, ⟨2, 12⟩, ⟨3, 13⟩, ⟨4, 14⟩, ⟨5, 15⟩],
    rounds := [], matchups := [], ballots := [], nextId := 0 }

/-- Witness for C3: seeding 5 entries gives `total_rounds = 3` and 4
round-1 matchups of which 3 are byes (bracket 8, 3 byes). -/
theorem seed_bracket_arithmetic_witness :
    ∃ st', seed exSt3 = .ok st'
      ∧ st'.totalRounds = some 3
      ∧ st'.matchups.length = 4
      ∧ (st'.matchups.filter (fun m => m.memeB == none)).length = 3 := by
  obtain ⟨st', hok, ⟨t, ht, hbt⟩, hle, hmin, hnb, hr, hlen, hbyes⟩ :=
    (seed_bracket_arithmetic exSt3).1 rfl (by decide)
  have hN : exSt3.memes.length = 5 := rfl
  rw [hN] at hbt hnb hlen hbyes
  have hbs8 : bracketSize 5 = 8 := by
    unfold bracketSize
    rw [clog_two_five]
    norm_num
  rw [hbs8] at hbt hnb hlen
  have ht3 : t = 3 := by
    have h2t : (2 : ℕ) ^ t = 2 ^ 3 := by
      rw [← hbt]
      norm_num
    exact Nat.pow_right_injective (by norm_num) h2t
  subst ht3
  refine ⟨st', hok, ht, ?_, ?_⟩
  · rw [hlen]
  · rw [hbyes]
    unfold numByes
    rw [hbs8]

/-- The bye invariant (§3): a matchup with no second entry is complete
with its lone entry as winner. -/
def ByeInv (st : State) : Prop :=
  ∀ m ∈ st.matchups, m.memeB = none → m.status = .complete ∧ m.winner = some m.memeA

/-- A matchup produced by the winner-propagation step that lacks a second
entry is auto-completed with its lone entry as winner. -/
theorem mkNext_bye (baseId nextNum : Nat) (ms : List Matchup) (p : Nat) (x : Matchup)
    (h : mkNext baseId nextNum ms p = some x) :
    x.memeB = none → x.status = .complete ∧ x.winner = some x.memeA := by
  unfold mkNext at h
  split at h
  · injection h with h2
    subst h2
    intro hb
    cases hb
  · injection h with h2
    subst h2
    intro _
    exact ⟨rfl, rfl⟩
  · injection h with h2
    subst h2
    intro _
    exact ⟨rfl, rfl⟩
  · cases h

/-- A successful `castVote` only appends a ballot: the matchup table is
untouched. -/
theorem castVote_matchups (st st' : State) (mid voter memeId : Nat)
    (hok : castVote st mid voter memeId = .ok st') : st'.matchups = st.matchups := by
  unfold castVote at hok
  cases hfind : st.matchups.find? (fun x => x.id == mid) with
  | none => rw [hfind] at hok; cases hok
  | some m2 =>
    rw [hfind] at hok
    simp only [] at hok
    split_ifs at hok
    all_goals injection hok with h
    subst h
    rfl

/-- The single-matchup conditional update of `closeMatchup`/`resolveTie`
preserves the bye invariant when the updated matchup is not complete. -/
theorem byeInv_map_update (st : State) (hinv : ByeInv st) (m2 : Matchup)
    (hnc : m2.status ≠ .complete) (w : Option Nat) (s2 : MStatus) :
    ∀ x ∈ st.matchups.map (fun x => if x = m2 then { x with winner := w, status := s2 } else x),
      x.memeB = none → x.status = .complete ∧ x.winner = some x.memeA := by
  intro x' hx' hbnone
  obtain ⟨x, hx, hfe⟩ := List.mem_map.1 hx'
  by_cases hxm : x = m2
  · subst hxm
    rw [if_pos rfl] at hfe
    subst hfe
    exact absurd ((hinv x hx hbnone).1) hnc
  · rw [if_neg hxm] at hfe
    subst hfe
    exact hinv x hx hbnone

/-- C4: under the bye invariant — every matchup without a second entry is
complete with its lone entry as winner, which holds of every state the
seeder produces — every core operation preserves the invariant, and
`castVote` on a bye matchup always fails with `MatchupNotVotable`, so no
ballot is ever accepted for a bye. -/
theorem bye_matchups_never_accept (st : State) (hinv : ByeInv st) :
    (∀ op st', applyOp st op = .ok st' → ByeInv st')
    ∧ (∀ st2, seed st = .ok st2 → ByeInv st2)
    ∧ (∀ mid m voter memeId, st.matchups.find? (fun x => x.id == mid) = some m →
        m.memeB = none → castVote st mid voter memeId = .error .MatchupNotVotable) := by
  have hseed : ∀ st2, seed st = .ok st2 → ByeInv st2 := by
    intro st2 hok
    unfold seed at hok
    split_ifs at hok with hc
    · injection hok with h2
      subst h2
      intro x hx hbnone
      simp only [List.mem_append] at hx
      rcases hx with hx | hx
      · have h3 := mkByes_mem _ _ _ x hx
        exact ⟨h3.2.1, h3.2.2.1⟩
      · have h3 := (mkPairs_mem _ _ _ x hx).1
        rw [hbnone] at h3
        cases h3
  refine ⟨?_, hseed, ?_⟩
  · intro op st' hok
    cases op with
    | seedOp => exact hseed st' hok
    | castVoteOp mid voter memeId =>
      have hm := castVote_matchups st st' mid voter memeId hok
      intro x hx hb
      rw [hm] at hx
      exact hinv x hx hb
    | closeMatchupOp mid =>
      simp only [applyOp] at hok
      unfold closeMatchup at hok
      cases hfind : st.matchups.find? (fun x => x.id == mid) with
      | none => rw [hfind] at hok; cases hok
      | some m2 =>
        rw [hfind] at hok
        simp only [] at hok
        split_ifs at hok with h1 h2 h3
        all_goals injection hok with h
        all_goals subst h
        all_goals
          exact byeInv_map_update st hinv m2 (by rw [h1]; intro hcc; cases hcc) _ _
    | closeAllOp roundNum =>
      simp only [applyOp, closeAllMatchups] at hok
      injection hok with h
      subst h
      intro x' hx' hb
      obtain ⟨x, hx, hfe⟩ := List.mem_map.1 hx'
      have hmb : x'.memeB = x.memeB := by
        rw [← hfe]
        by_cases hcond : x.roundNumber = roundNum ∧ x.status = .voting
        · rw [if_pos hcond]
          by_cases hgt : votesA st x > votesB st x
          · rw [if_pos hgt]
          · rw [if_neg hgt]
            by_cases hgt2 : votesB st x > votesA st x
            · rw [if_pos hgt2]
            · rw [if_neg hgt2]
        · rw [if_neg hcond]
      have hbx : x.memeB = none := by rw [← hmb, hb]
      have hxinv := hinv x hx hbx
      have hcondF : ¬(x.roundNumber = roundNum ∧ x.status = .voting) := by
        intro hc
        rw [hxinv.1] at hc
        cases hc.2
      rw [← hfe, if_neg hcondF]
      exact hxinv
    | advanceOp =>
      simp only [applyOp] at hok
      unfold advanceRound at hok
      split_ifs at hok with h1
      cases hfindr : st.rounds.find? (fun r => r.status == .voting) with
      | none => rw [hfindr] at hok; cases hok
      | some r =>
        rw [hfindr] at hok
        simp only [] at hok
        split_ifs at hok with h2 h3
        all_goals injection hok with h
        all_goals subst h
        · intro x hx hb
          exact hinv x hx hb
        · intro x hx hb
          rcases List.mem_append.1 hx with hx2 | hx2
          · exact hinv x hx2 hb
          · obtain ⟨p, _, hmk⟩ := List.mem_filterMap.1 hx2
            exact mkNext_bye _ _ _ _ _ hmk hb
    | resolveTieOp mid chosenId admin =>
      simp only [applyOp] at hok
      unfold resolveTie at hok
      split_ifs at hok with h0
      cases hfind : st.matchups.find? (fun x => x.id == mid) with
      | none => rw [hfind] at hok; cases hok
      | some m2 =>
        rw [hfind] at hok
        simp only [] at hok
        split_ifs at hok with h1 h2 h3
        all_goals injection hok with h
        all_goals subst h
        exact byeInv_map_update st hinv m2 h1 _ _
  · intro mid m voter memeId hfind hb
    have hm : m ∈ st.matchups := List.mem_of_find?_eq_some hfind
    have hst := (hinv m hm hb).1
    unfold castVote
    rw [hfind]
    simp only []
    rw [if_neg (by rw [hst]; intro hcc; cases hcc)]

/-- A tournament with one bye matchup (entry 1) and one contested matchup
(entries 2 vs 3). -/
def exSt4 : State :=
  { tstatus := .voting_open, totalRounds := some 1,
    memes := [⟨1, 11⟩, ⟨2, 12⟩, ⟨3, 13⟩],
    rounds := [⟨1, .voting⟩],
    matchups := [⟨10, 1, 0, 1, none, some 1, .complete⟩, ⟨11, 1, 1, 2, some 3, none, .voting⟩],
    ballots := [], nextId := 12 }

/-- Witness for C4: voting on the bye matchup 10 is rejected. -/
theorem bye_matchups_never_accept_witness :
    castVote exSt4 10 300 1 = .error .MatchupNotVotable := by
  exact (bye_matchups_never_accept exSt4 (by unfold ByeInv; decide)).2.2
    10 ⟨10, 1, 0, 1, none, some 1, .complete⟩ 300 1 rfl rfl

/-- Looking up a matchup by id after a single-matchup conditional update. -/
theorem find?_map_update (l : List Matchup) (m m2 : Matchup) (w : Option Nat) (s2 : MStatus)
    (hfind : l.find? (fun x => x.id == m.id) = some m) :
    (l.map (fun x => if x = m2 then { x with winner := w, status := s2 } else x)).find?
        (fun x => x.id == m.id)
      = some (if m = m2 then { m with winner := w, status := s2 } else m) := by
  rw [find?_map_id _ (fun x => by by_cases hx : x = m2 <;> simp [hx]) l m.id, hfind]
  rfl

/-- A map that preserves ids and fixes the looked-up matchup preserves its
reported status. -/
theorem matchupStatus_map_fixed (st : State) (m : Matchup) (f : Matchup → Matchup)
    (hf : ∀ x, (f x).id = x.id) (hfix : f m = m)
    (hfind : st.matchups.find? (fun x => x.id == m.id) = some m) :
    ((st.matchups.map f).find? (fun x => x.id == m.id)).map (fun x => x.status)
      = some m.status := by
  rw [find?_map_id f hf st.matchups m.id, hfind]
  simp [hfix]

/-- C2: for a matchup in status voting (with two entries, in a voting
tournament), `closeMatchup` succeeds iff the tallies differ — winner
`entry_a` when `votes_a > votes_b`, winner `entry_b` when
`votes_b > votes_a`, with status complete; on a tie it fails with
`TieRequiresResolution` leaving status and winner unchanged, every core
operation other than `resolveTie` leaves the tied matchup still in status
voting, and `resolveTie` with either entry closes it. -/
theorem closeMatchup_tie_law (st : State) (m : Matchup) (b : Nat)
    (hfind : st.matchups.find? (fun x => x.id == m.id) = some m)
    (hv : m.status = .voting) (hb : m.memeB = some b)
    (htour : st.tstatus = .voting_open) :
    (votesA st m > votesB st m →
      closeMatchup st m.id = .ok { st with matchups := st.matchups.map (fun x =>
          if x = m then { x with winner := some m.memeA, status := .complete } else x) }
      ∧ ({ st with matchups := st.matchups.map (fun x =>
          if x = m then { x with winner := some m.memeA, status := .complete } else x) } : State).matchups.find?
            (fun x => x.id == m.id) = some { m with winner := some m.memeA, status := .complete })
    ∧ (votesB st m > votesA st m →
      closeMatchup st m.id = .ok { st with matchups := st.matchups.map (fun x =>
          if x = m then { x with winner := m.memeB, status := .complete } else x) }
      ∧ ({ st with matchups := st.matchups.map (fun x =>
          if x = m then { x with winner := m.memeB, status := .complete } else x) } : State).matchups.find?
            (fun x => x.id == m.id) = some { m with winner := some b, status := .complete })
    ∧ (votesA st m = votesB st m →
        closeMatchup st m.id = .error .TieRequiresResolution
        ∧ (∀ op, op.isTieResolution = false →
            matchupStatus (stepState st (applyOp st op)) m.id = some .voting)
        ∧ (∀ e, (e = m.memeA ∨ e = b) →
            resolveTie st m.id e true = .ok { st with matchups := st.matchups.map (fun x =>
              if x = m then { x with winner := some e, status := .complete } else x) }
            ∧ ({ st with matchups := st.matchups.map (fun x =>
              if x = m then { x with winner := some e, status := .complete } else x) } : State).matchups.find?
                (fun x => x.id == m.id) = some { m with winner := some e, status := .complete })) := by
  refine ⟨?_, ?_, ?_⟩
  · intro hgt
    constructor
    · simp only [closeMatchup, hfind]
      rw [if_pos hv, if_pos hgt]
    · show (st.matchups.map (fun x =>
          if x = m then { x with winner := some m.memeA, status := .complete } else x)).find?
            (fun x => x.id == m.id) = _
      rw [find?_map_update st.matchups m m _ _ hfind, if_pos rfl]
  · intro hgt
    constructor
    · simp only [closeMatchup, hfind]
      rw [if_pos hv, if_neg (by omega), if_pos hgt]
    · show (st.matchups.map (fun x =>
          if x = m then { x with winner := m.memeB, status := .complete } else x)).find?
            (fun x => x.id == m.id) = _
      rw [find?_map_update st.matchups m m _ _ hfind, if_pos rfl, hb]
  · intro htie
    refine ⟨?_, ?_, ?_⟩
    · simp only [closeMatchup, hfind]
      rw [if_pos hv, if_neg (by omega), if_neg (by omega)]
    · intro op hopnot
      cases op with
      | seedOp =>
        simp only [applyOp]
        have herr : seed st = .error .InsufficientEntries := by
          simp only [seed]
          rw [if_neg (fun hc => by rw [htour] at hc; cases hc.1)]
        rw [herr]
        simp [stepState, matchupStatus, hfind, hv]
      | castVoteOp mid2 voter e2 =>
        simp only [applyOp]
        cases hres : castVote st mid2 voter e2 with
        | error err =>
          simp [stepState, matchupStatus, hfind, hv]
        | ok st2 =>
          have hm2 := castVote_matchups st st2 mid2 voter e2 hres
          simp [stepState, matchupStatus, hm2, hfind, hv]
      | closeMatchupOp mid2 =>
        simp only [applyOp]
        cases hres : closeMatchup st mid2 with
        | error err =>
          simp [stepState, matchupStatus, hfind, hv]
        | ok st2 =>
          unfold closeMatchup at hres
          cases hfind2 : st.matchups.find? (fun x => x.id == mid2) with
          | none => rw [hfind2] at hres; cases hres
          | some m2 =>
            rw [hfind2] at hres
            simp only [] at hres
            split_ifs at hres with hs1 hs2 hs3
            · injection hres with hres2
              subst hres2
              have hne : ¬(m = m2) := by
                intro he
                rw [← he] at hs2
                omega
              simp only [stepState, matchupStatus]
              rw [find?_map_update st.matchups m m2 _ _ hfind, if_neg hne]
              simp [hv]
            · injection hres with hres2
              subst hres2
              have hne : ¬(m = m2) := by
                intro he
                rw [← he] at hs3
                omega
              simp only [stepState, matchupStatus]
              rw [find?_map_update st.matchups m m2 _ _ hfind, if_neg hne]
              simp [hv]
      | closeAllOp rn =>
        simp only [applyOp, closeAllMatchups, stepState, matchupStatus]
        rw [matchupStatus_map_fixed st m _ (fun x => by split_ifs <;> rfl)
          (by split_ifs with hc hg hg2
              · exfalso; omega
              · exfalso; omega
              · rfl
              · rfl) hfind, hv]
      | advanceOp =>
        simp only [applyOp]
        unfold advanceRound
        rw [if_pos htour]
        cases hfr : st.rounds.find? (fun r => r.status == .voting) with
        | none => simp [stepState, matchupStatus, hfind, hv]
        | some r =>
          simp only []
          by_cases hany : ((st.matchups.filter (fun x => x.roundNumber == r.number)).any
              (fun x => !(x.status == .complete))) = true
          · rw [if_pos hany]
            simp [stepState, matchupStatus, hfind, hv]
          · rw [if_neg hany]
            by_cases hlen : (st.matchups.filter (fun x => x.roundNumber == r.number)).length ≤ 1
            · rw [if_pos hlen]
              simp [stepState, matchupStatus, hfind, hv]
            · rw [if_neg hlen]
              simp only [stepState, matchupStatus]
              rw [List.find?_append, hfind]
              simp [hv]
      | resolveTieOp m3 e3 a3 =>
        simp [Op.isTieResolution] at hopnot
    · intro e he
      have hchoice : e = m.memeA ∨ some e = m.memeB := by
        rcases he with he | he
        · exact Or.inl he
        · rw [hb, he]
          exact Or.inr rfl
      constructor
      · simp only [resolveTie, hfind]
        rw [if_neg (by simp), if_neg (by rw [hv]; intro hcc; cases hcc),
          if_neg (fun hne => hne htie), if_pos hchoice]
      · show (st.matchups.map (fun x =>
            if x = m then { x with winner := some e, status := .complete } else x)).find?
              (fun x => x.id == m.id) = _
        rw [find?_map_update st.matchups m m _ _ hfind, if_pos rfl]

/-- Witness for C2: matchup 11 of `exSt4` is tied 0–0; closing it fails
with `TieRequiresResolution`, the batch closer leaves it in voting, and a
tie-break for entry 3 completes it with winner 3. -/
theorem closeMatchup_tie_law_witness :
    closeMatchup exSt4 11 = .error .TieRequiresResolution
    ∧ matchupStatus (stepState exSt4 (applyOp exSt4 (.closeAllOp 1))) 11 = some .voting
    ∧ (∃ st', resolveTie exSt4 11 3 true = .ok st') := by
  have h := (closeMatchup_tie_law exSt4 ⟨11, 1, 1, 2, some 3, none, .voting⟩ 3
    rfl rfl rfl rfl).2.2 rfl
  exact ⟨h.1, h.2.1 (.closeAllOp 1) rfl, ⟨_, (h.2.2 3 (Or.inr rfl)).1⟩⟩

/-- Bracket well-formedness consumed by round advancement: every voting
round is the unique current one and the last (no rounds or matchups
beyond it), complete matchups carry winners, and the voting round's
matchups occupy positions `0 .. count−1`. -/
def AdvWF (st : State) : Prop :=
  ∀ r ∈ st.rounds, r.status = .voting →
    (∀ x ∈ st.rounds, x.status = .voting → x.number = r.number)
    ∧ (∀ x ∈ st.matchups, x.roundNumber ≤ r.number)
    ∧ (∀ x ∈ st.matchups, x.status = .complete → x.winner.isSome)
    ∧ (∀ q, q < (st.matchups.filter (fun x => x.roundNumber == r.number)).length →
        ∃ x ∈ st.matchups, x.roundNumber = r.number ∧ x.position = q)

/-- C9: on a well-formed bracket, a second `advanceRound` immediately
after a successful one is a no-op: it reports `RoundNotComplete` (the
fresh round is still voting) or `InvalidState` (the tournament just
completed), and the bracket state is unchanged. -/
theorem advanceRound_idempotent (st st' : State) (hwf : AdvWF st)
    (hok : advanceRound st = .ok st') :
    (advanceRound st' = .error .RoundNotComplete ∨ advanceRound st' = .error .InvalidState)
    ∧ stepState st' (advanceRound st') = st' := by
  have hmain : advanceRound st' = .error .RoundNotComplete
      ∨ advanceRound st' = .error .InvalidState := by
    unfold advanceRound at hok
    split_ifs at hok with h1
    cases hfr : st.rounds.find? (fun r => r.status == .voting) with
    | none => rw [hfr] at hok; cases hok
    | some r =>
      rw [hfr] at hok
      simp only [] at hok
      split_ifs at hok with h2 h3
      · -- final round: tournament completed
        injection hok with h
        subst h
        right
        simp [advanceRound]
      · -- a fresh voting round was opened
        injection hok with h
        subst h
        left
        have hrmem : r ∈ st.rounds := List.mem_of_find?_eq_some hfr
        have hrv : r.status = .voting := by
          have hps := List.find?_some hfr
          simpa using hps
        obtain ⟨huniq, hmax, hwin, hpos⟩ := hwf r hrmem hrv
        have hnone : (st.rounds.map (fun x =>
            if x.number = r.number then { x with status := MStatus.complete } else x)).find?
              (fun r2 => r2.status == .voting) = none := by
          rw [List.find?_eq_none]
          intro y hy
          obtain ⟨x, hx, hfe⟩ := List.mem_map.1 hy
          by_cases hxn : x.number = r.number
          · rw [if_pos hxn] at hfe
            subst hfe
            simp
          · rw [if_neg hxn] at hfe
            subst hfe
            intro hcon
            exact hxn (huniq x hx (by simpa using hcon))
        have hfr2 : ((st.rounds.map (fun x =>
            if x.number = r.number then { x with status := MStatus.complete } else x))
              ++ [(⟨r.number + 1, MStatus.voting⟩ : Round)]).find? (fun r2 => r2.status == .voting)
            = some (⟨r.number + 1, MStatus.voting⟩ : Round) := by
          rw [List.find?_append, hnone]
          rfl
        have hlen2 : 2 ≤ (st.matchups.filter (fun x => x.roundNumber == r.number)).length := by
          omega
        obtain ⟨x0, hx0m, hx0r, hx0p⟩ := hpos 0 (by omega)
        obtain ⟨x1, hx1m, hx1r, hx1p⟩ := hpos 1 (by omega)
        have hallc : ∀ x ∈ st.matchups.filter (fun x => x.roundNumber == r.number),
            x.status = .complete := by
          intro x hx
          have h2f : (st.matchups.filter (fun x => x.roundNumber == r.number)).any
              (fun x => !(x.status == .complete)) = false := by
            revert h2
            cases (st.matchups.filter (fun x => x.roundNumber == r.number)).any
              (fun x => !(x.status == .complete)) <;> simp
          have hxf := List.any_eq_false.mp h2f x hx
          simpa using hxf
        have hf0 : ((st.matchups.filter (fun x => x.roundNumber == r.number)).find?
            (fun x => x.position == 2 * 0)).isSome := by
          apply List.find?_isSome.2
          exact ⟨x0, List.mem_filter.2 ⟨hx0m, by simp [hx0r]⟩, by simp [hx0p]⟩
        have hf1 : ((st.matchups.filter (fun x => x.roundNumber == r.number)).find?
            (fun x => x.position == 2 * 0 + 1)).isSome := by
          apply List.find?_isSome.2
          exact ⟨x1, List.mem_filter.2 ⟨hx1m, by simp [hx1r]⟩, by simp [hx1p]⟩
        obtain ⟨m0, hm0⟩ := Option.isSome_iff_exists.1 hf0
        obtain ⟨m1, hm1⟩ := Option.isSome_iff_exists.1 hf1
        have hm0c : m0.status = .complete := hallc m0 (List.mem_of_find?_eq_some hm0)
        have hm1c : m1.status = .complete := hallc m1 (List.mem_of_find?_eq_some hm1)
        have hm0w : m0.winner.isSome :=
          hwin m0 (List.mem_filter.1 (List.mem_of_find?_eq_some hm0)).1 hm0c
        have hm1w : m1.winner.isSome :=
          hwin m1 (List.mem_filter.1 (List.mem_of_find?_eq_some hm1)).1 hm1c
        obtain ⟨w0, hw0⟩ := Option.isSome_iff_exists.1 hm0w
        obtain ⟨w1, hw1⟩ := Option.isSome_iff_exists.1 hm1w
        have hbind0 : ((st.matchups.filter (fun x => x.roundNumber == r.number)).find?
            (fun x => x.position == 2 * 0)).bind (fun x => x.winner) = some w0 := by
          rw [hm0]
          simpa using hw0
        have hbind1 : ((st.matchups.filter (fun x => x.roundNumber == r.number)).find?
            (fun x => x.position == 2 * 0 + 1)).bind (fun x => x.winner) = some w1 := by
          rw [hm1]
          simpa using hw1
        have hmk : mkNext st.nextId (r.number + 1)
            (st.matchups.filter (fun x => x.roundNumber == r.number)) 0 = some
            { id := st.nextId + 0, roundNumber := r.number + 1, position := 0,
              memeA := w0, memeB := some w1, winner := none, status := .voting } := by
          unfold mkNext
          rw [hbind0, hbind1]
        have hmem :
            ({ id := st.nextId + 0, roundNumber := r.number + 1, position := 0,
               memeA := w0, memeB := some w1, winner := none, status := .voting } : Matchup)
            ∈ (List.range ((st.matchups.filter (fun x => x.roundNumber == r.number)).length / 2)).filterMap
              (mkNext st.nextId (r.number + 1) (st.matchups.filter (fun x => x.roundNumber == r.number))) :=
          List.mem_filterMap.2 ⟨0, List.mem_range.2 (by omega), hmk⟩
        have hany2 : ((st.matchups
            ++ (List.range ((st.matchups.filter (fun x => x.roundNumber == r.number)).length / 2)).filterMap
              (mkNext st.nextId (r.number + 1) (st.matchups.filter (fun x => x.roundNumber == r.number)))).filter
                (fun x => x.roundNumber == r.number + 1)).any (fun x => !(x.status == .complete)) = true := by
          rw [List.any_eq_true]
          refine ⟨_, List.mem_filter.2 ⟨List.mem_append.2 (Or.inr hmem), by simp⟩, by simp⟩
        simp only [advanceRound]
        rw [if_pos h1]
        simp only [hfr2]
        rw [if_pos hany2]
  refine ⟨hmain, ?_⟩
  rcases hmain with h | h <;> rw [h] <;> rfl

/-- A one-matchup final round, decided 1–0 in favour of entry 1. -/
def exSt9 : State :=
  { tstatus := .voting_open, totalRounds := some 1,
    memes := [⟨1, 11⟩, ⟨2, 12⟩],
    rounds := [⟨1, .voting⟩],
    matchups := [⟨10, 1, 0, 1, some 2, some 1, .complete⟩],
    ballots := [⟨10, 300, 1⟩], nextId := 11 }

/-- `exSt9` after the final round is advanced: tournament complete. -/
def exSt9A : State :=
  { exSt9 with tstatus := .complete, rounds := [⟨1, .complete⟩] }

/-- Witness for C9: advancing the final round succeeds once; the retry is
rejected and changes nothing. -/
theorem advanceRound_idempotent_witness :
    advanceRound exSt9 = .ok exSt9A
    ∧ (advanceRound exSt9A = .error .RoundNotComplete
        ∨ advanceRound exSt9A = .error .InvalidState)
    ∧ stepState exSt9A (advanceRound exSt9A) = exSt9A := by
  have hok : advanceRound exSt9 = .ok exSt9A := by rfl
  have h := advanceRound_idempotent exSt9 exSt9A (by unfold AdvWF; decide) hok
  exact ⟨hok, h.1, h.2⟩

/-- C6: when the voter owns either entry of the matchup, `castVote` never
persists a ballot — it always fails, and whenever the other
preconditions hold (matchup voting, valid choice, no previous ballot) the
error is `ConflictOfInterest`; the frontend likewise hides both vote
buttons from such a voter. -/
theorem castVote_conflict_of_interest (st : State) (mid voter memeId : Nat) (m : Matchup)
    (hfind : st.matchups.find? (fun x => x.id == mid) = some m)
    (hown : ownsEntry st voter m = true) :
    (∃ err, castVote st mid voter memeId = .error err)
    ∧ stepState st (castVote st mid voter memeId) = st
    ∧ (m.status = .voting → (memeId = m.memeA ∨ some memeId = m.memeB) →
        hasVoted st voter mid = false →
        castVote st mid voter memeId = .error .ConflictOfInterest)
    ∧ (∀ v : MatchupView, viewIsOwner v voter = true →
        voteButtonA v voter none = false ∧ voteButtonB v voter none = false) := by
  have hcase : ∃ err, castVote st mid voter memeId = .error err := by
    simp only [castVote, hfind]
    by_cases h1 : m.status = .voting
    · rw [if_pos h1]
      by_cases h2 : memeId = m.memeA ∨ some memeId = m.memeB
      · rw [if_pos h2]
        by_cases h3 : hasVoted st voter mid = true
        · rw [if_pos h3]
          exact ⟨_, rfl⟩
        · rw [if_neg h3, if_pos hown]
          exact ⟨_, rfl⟩
      · rw [if_neg h2]
        exact ⟨_, rfl⟩
    · rw [if_neg h1]
      exact ⟨_, rfl⟩
  refine ⟨hcase, ?_, ?_, ?_⟩
  · obtain ⟨err, herr⟩ := hcase
    rw [herr]
    rfl
  · intro h1 h2 h3
    simp only [castVote, hfind]
    rw [if_pos h1, if_pos h2, if_neg (by simp [h3]), if_pos hown]
  · intro v hvown
    constructor
    · simp [voteButtonA, hvown]
    · simp [voteButtonB, hvown]

/-- Witness for C6: user 100 owns entry 1 of matchup 10 and is blocked. -/
theorem castVote_conflict_of_interest_witness :
    castVote exSt1 10 100 1 = .error .ConflictOfInterest := by
  exact (castVote_conflict_of_interest exSt1 10 100 1 ⟨10, 1, 0, 1, some 2, none, .voting⟩
    rfl rfl).2.2.1 rfl (Or.inl rfl) rfl

/-- C8: the `votes` RLS policies of the schema migration grant no UPDATE
and no DELETE, and every core operation only ever appends to the ballot
list: a ballot, once created, is never updated or removed. -/
theorem ballots_append_only :
    (∀ auth own : Bool, votesPolicyAllows .update auth own = false
      ∧ votesPolicyAllows .delete auth own = false)
    ∧ (∀ st op st', applyOp st op = .ok st' → ∃ tail, st'.ballots = st.ballots ++ tail) := by
  constructor
  · intro auth own
    exact ⟨rfl, rfl⟩
  · intro st op st' hok
    cases op with
    | seedOp =>
      simp only [applyOp] at hok
      unfold seed at hok
      split_ifs at hok with hc
      injection hok with h
      subst h
      exact ⟨[], by simp⟩
    | castVoteOp mid voter memeId =>
      simp only [applyOp] at hok
      unfold castVote at hok
      cases hfind : st.matchups.find? (fun x => x.id == mid) with
      | none => rw [hfind] at hok; cases hok
      | some m =>
        rw [hfind] at hok
        simp only [] at hok
        split_ifs at hok
        injection hok with h
        subst h
        exact ⟨[⟨mid, voter, memeId⟩], rfl⟩
    | closeMatchupOp mid =>
      simp only [applyOp] at hok
      unfold closeMatchup at hok
      cases hfind : st.matchups.find? (fun x => x.id == mid) with
      | none => rw [hfind] at hok; cases hok
      | some m =>
        rw [hfind] at hok
        simp only [] at hok
        split_ifs at hok
        all_goals injection hok with h
        all_goals subst h
        all_goals exact ⟨[], by simp⟩
    | closeAllOp rn =>
      simp only [applyOp] at hok
      unfold closeAllMatchups at hok
      injection hok with h
      subst h
      exact ⟨[], by simp⟩
    | advanceOp =>
      simp only [applyOp] at hok
      unfold advanceRound at hok
      split_ifs at hok with h1
      cases hfr : st.rounds.find? (fun r => r.status == .voting) with
      | none => rw [hfr] at hok; cases hok
      | some r =>
        rw [hfr] at hok
        simp only [] at hok
        split_ifs at hok with h2 h3
        all_goals injection hok with h
        all_goals subst h
        all_goals exact ⟨[], by simp⟩
    | resolveTieOp mid chosenId admin =>
      simp only [applyOp] at hok
      unfold resolveTie at hok
      split_ifs at hok with h0
      cases hfind : st.matchups.find? (fun x => x.id == mid) with
      | none => rw [hfind] at hok; cases hok
      | some m =>
        rw [hfind] at hok
        simp only [] at hok
        split_ifs at hok
        injection hok with h
        subst h
        exact ⟨[], by simp⟩

/-- Witness for C8: UPDATE is denied, and voter 300's vote only appends. -/
theorem ballots_append_only_witness :
    votesPolicyAllows .update true true = false
    ∧ (∃ tail, exSt1V.ballots = exSt1.ballots ++ tail) := by
  refine ⟨(ballots_append_only.1 true true).1, ?_⟩
  exact ballots_append_only.2 exSt1 (.castVoteOp 10 300 1) exSt1V rfl

/-- C5 counterexample: in `exSt1V`, matchup 10 is still in status voting
and caller 400 holds no ballot for it, yet the storage-layer SELECT
policy on the `votes` table admits caller 400 — it admits every
authenticated user (and, after the membership migration, every member) —
so the live ballots, and with them the live tally `votes_a = 1`, are
readable to a caller who has not voted. -/
theorem visibility_policy_counterexample :
    hasVoted exSt1V 400 10 = false
    ∧ matchupStatus exSt1V 10 = some .voting
    ∧ votesSelectPolicy true = true
    ∧ votesSelectPolicyMembers true false = true
    ∧ votesFor exSt1V 10 1 = 1 := by decide

/-- C5 amended: the results endpoint reports tallies visible exactly when
the caller has already voted or the matchup is complete, but the `votes`
table's own SELECT policy admits every authenticated caller regardless,
so the visibility restriction is enforced only at the endpoint and not
by the storage layer. -/
theorem visibility_endpoint_only (st : State) (callerId mid : Nat) (m : Matchup)
    (hfind : st.matchups.find? (fun x => x.id == mid) = some m) :
    getResults st callerId mid
      = some (votesA st m, votesB st m, hasVoted st callerId mid || (m.status == .complete))
    ∧ ((hasVoted st callerId mid || (m.status == .complete)) = true
        ↔ (hasVoted st callerId mid = true ∨ m.status = .complete))
    ∧ (∀ authenticated : Bool, votesSelectPolicy authenticated = authenticated) := by
  refine ⟨?_, ?_, fun _ => rfl⟩
  · simp [getResults, hfind]
  · simp

/-- Witness for the amended C5: voter 300 sees the live 1–0 tally. -/
theorem visibility_endpoint_only_witness :
    getResults exSt1V 300 10 = some (1, 0, true) := by
  have h := visibility_endpoint_only exSt1V 300 10 ⟨10, 1, 0, 1, some 2, none, .voting⟩ rfl
  rw [h.1]
  rfl

/-- C7 counterexample: in `exSt1` the tournament is already `voting_open`,
yet the storage-layer DELETE policy on `memes` — which checks ownership
only, never the tournament status — still permits owner 100 to delete
entry 1. -/
theorem entry_deletion_counterexample :
    exSt1.tstatus = .voting_open
    ∧ storageDeleteAllowed exSt1 100 1 = true := by decide

/-- C7 amended: the submission page offers deletion only while the
tournament is `submission_open`, and the storage policy restricts
deletion to the entry's owner; the `submission_open` requirement is
enforced only by the interface, not by the storage policy, so an owner's
direct storage delete succeeds in any tournament status. -/
theorem entry_deletion_gating (st : State) (callerId memeId : Nat) (mm : Meme)
    (hfind : st.memes.find? (fun x => x.id == memeId) = some mm) :
    (deleteButtonShown st.tstatus = true ↔ st.tstatus = .submission_open)
    ∧ (storageDeleteAllowed st callerId memeId = true ↔ callerId = mm.owner) := by
  constructor
  · simp [deleteButtonShown, submissionsOpen]
  · simp [storageDeleteAllowed, hfind, memesDeletePolicy]

/-- Witness for the amended C7: owner 100 may storage-delete entry 1. -/
theorem entry_deletion_gating_witness :
    storageDeleteAllowed exSt1 100 1 = true :=
  (entry_deletion_gating exSt1 100 1 ⟨1, 100⟩ rfl).2.mpr rfl

/-- C10: once a user's submission count for the tournament reaches 2 the
upload form is not rendered so no further upload can be initiated (below
2 with submissions open it is rendered), the limit-reached card appears
instead, and the counter inside the form reads `n/2 submissions used`. -/
theorem submission_limit_two (t : TStatus) (count : Nat) :
    (2 ≤ count → uploadFormShown t count = false)
    ∧ (2 ≤ count → submissionsOpen t = true → limitCardShown t count = true)
    ∧ (count < 2 → submissionsOpen t = true → uploadFormShown t count = true)
    ∧ submissionsCountText count = toString count ++ "/2 submissions used" := by
  refine ⟨?_, ?_, ?_, rfl⟩
  · intro h
    simp [uploadFormShown, atLimit, h]
  · intro h hopen
    simp [limitCardShown, atLimit, h, hopen]
  · intro h hopen
    simp [uploadFormShown, atLimit, hopen]
    omega

/-- Witness for C10 at counts 2 and 1. -/
theorem submission_limit_two_witness :
    uploadFormShown .submission_open 2 = false
    ∧ limitCardShown .submission_open 2 = true
    ∧ uploadFormShown .submission_open 1 = true := by
  exact ⟨(submission_limit_two .submission_open 2).1 (by norm_num),
    (submission_limit_two .submission_open 2).2.1 (by norm_num) rfl,
    (submission_limit_two .submission_open 1).2.2.1 (by norm_num) rfl⟩
